import Mathlib

/-!
Verification of the food-discovery filter/sort engine of the pubhub
repository, together with its two pure helpers (`hasActiveFilters` and
`computeDogAgeLabel`) and the breed-size normalization performed by
`loadProducts`.

The embedding follows the source screen component: a catalog is a list of
`FoodProduct` records; the engine (`filteredProducts`) applies the five
conditional facet filters in their fixed order and then sorts the
surviving list with the comparator selected by the sort key.  JavaScript's
`Array.prototype.sort` is required by the language standard to be a stable
sort, so it is modelled here by a stable insertion sort over the Boolean
comparator; for the total preorders used by the engine the result of any
stable sort is uniquely determined, so this is a faithful model.
JavaScript numbers are modelled by `ℚ` and the nullable price by
`Option ℚ`.
-/

/-- The `food_type` union of the source `FoodProduct` record:
`dry | wet | raw | freeze-dried`. -/
inductive FoodType where
  | dry
  | wet
  | raw
  | freezeDried
deriving DecidableEq

/-- The runtime string stored in a product's `type` field. -/
def FoodType.str : FoodType → String
  | .dry => "dry"
  | .wet => "wet"
  | .raw => "raw"
  | .freezeDried => "freeze-dried"

/-- The breed-size union `small | medium | large` of the source record. -/
inductive BreedSize where
  | small
  | medium
  | large
deriving DecidableEq

/-- The runtime string stored in a product's `breedSizes` entries. -/
def BreedSize.str : BreedSize → String
  | .small => "small"
  | .medium => "medium"
  | .large => "large"

/-- The life-stage union `puppy | adult | senior` of the source record. -/
inductive LifeStage where
  | puppy
  | adult
  | senior
deriving DecidableEq

/-- The runtime string stored in a product's `lifeStage` field. -/
def LifeStage.str : LifeStage → String
  | .puppy => "puppy"
  | .adult => "adult"
  | .senior => "senior"

/-- The `FoodProduct` record of the source (part_005, lines 16-29). -/
structure FoodProduct where
  id : String
  name : String
  brand : String
  type : FoodType
  breedSizes : List BreedSize
  lifeStage : LifeStage
  diets : List String
  rating : ℚ
  price : Option ℚ
  description : String
  imageUrl : Option String
  affiliateUrl : Option String
deriving DecidableEq

/-- The five facet selections held in the screen state
(`selectedType`, `selectedSize`, `selectedLifeStage`, `selectedPrice`,
`selectedDiet`); each is a plain string defaulting to `"all"`. -/
structure Facets where
  type : String
  size : String
  lifeStage : String
  price : String
  diet : String
deriving DecidableEq

/-- The non-`"all"` values of `FOOD_TYPE_OPTIONS`. -/
def recognizedTypes : List String := ["dry", "wet", "raw", "freeze-dried"]

/-- The non-`"all"` values of `BREED_SIZE_OPTIONS`. -/
def recognizedSizes : List String := ["small", "medium", "large"]

/-- The non-`"all"` values of `LIFE_STAGE_OPTIONS`. -/
def recognizedLifeStages : List String := ["puppy", "adult", "senior"]

/-- The non-`"all"` values of `PRICE_OPTIONS`. -/
def recognizedPriceBuckets : List String :=
  ["under-30", "30-50", "50-100", "100-plus"]

/-- The non-`"all"` values of `DIET_OPTIONS`. -/
def recognizedDiets : List String :=
  ["grain-free", "hypoallergenic", "weight-management", "sensitive-stomach"]

/-- Type filter predicate: `item.type === selectedType` (part_005, line 201). -/
def typeKeeps (sel : String) (p : FoodProduct) : Bool :=
  FoodType.str p.type == sel

/-- Breed-size filter predicate:
`item.breedSizes.includes(selectedSize)` (part_005, line 204). -/
def sizeKeeps (sel : String) (p : FoodProduct) : Bool :=
  (p.breedSizes.map BreedSize.str).contains sel

/-- Life-stage filter predicate:
`item.lifeStage === selectedLifeStage` (part_005, line 207). -/
def lifeStageKeeps (sel : String) (p : FoodProduct) : Bool :=
  LifeStage.str p.lifeStage == sel

/-- Price filter predicate (part_005, lines 210-223): a null price is
rejected first, then the selected bucket is matched by a switch whose
default branch returns `true`. -/
def priceBucketKeeps (sel : String) (p : FoodProduct) : Bool :=
  match p.price with
  | none => false
  | some price =>
    if sel == "under-30" then decide (price < 30)
    else if sel == "30-50" then decide (30 ≤ price) && decide (price < 50)
    else if sel == "50-100" then decide (50 ≤ price) && decide (price < 100)
    else if sel == "100-plus" then decide (100 ≤ price)
    else true

/-- Diet filter predicate: `item.diets.includes(selectedDiet)`
(part_005, line 227). -/
def dietKeeps (sel : String) (p : FoodProduct) : Bool :=
  p.diets.contains sel

/-- Lexicographic comparison of code-point lists; models the string
comparison performed by `a.name.localeCompare(b.name)` for the default
code-point collation. -/
def charListLe : List Char → List Char → Bool
  | [], _ => true
  | _ :: _, [] => false
  | a :: as, b :: bs =>
    if a.toNat < b.toNat then true
    else if b.toNat < a.toNat then false
    else charListLe as bs

/-- Comparator of the `price-asc` branch (part_005, lines 232-237) read as
"the comparator result is not positive": nulls compare after every number,
two nulls compare equal, and numbers compare by value. -/
def priceAscLe (a b : FoodProduct) : Bool :=
  match a.price, b.price with
  | none, none => true
  | none, some _ => false
  | some _, none => true
  | some x, some y => decide (x ≤ y)

/-- Comparator of the `price-desc` branch (part_005, lines 240-245):
null handling identical to `price-asc`, numeric comparison flipped. -/
def priceDescLe (a b : FoodProduct) : Bool :=
  match a.price, b.price with
  | none, none => true
  | none, some _ => false
  | some _, none => true
  | some x, some y => decide (y ≤ x)

/-- Comparator of the `name-asc` branch (part_005, line 248). -/
def nameAscLe (a b : FoodProduct) : Bool :=
  charListLe a.name.data b.name.data

/-- Comparator of the `rating-desc` branch, which is also the switch
default (part_005, lines 250-253). -/
def ratingDescLe (a b : FoodProduct) : Bool :=
  decide (b.rating ≤ a.rating)

/-- The comparator selected by the sort key: the source switch has cases
for `price-asc`, `price-desc` and `name-asc`, and `rating-desc` shares the
default branch. -/
def leFor (sortOption : String) (a b : FoodProduct) : Bool :=
  if sortOption == "price-asc" then priceAscLe a b
  else if sortOption == "price-desc" then priceDescLe a b
  else if sortOption == "name-asc" then nameAscLe a b
  else ratingDescLe a b

/-- Insert `a` into `l` before the first element `b` with `le a b`. -/
def orderedInsert (le : α → α → Bool) (a : α) : List α → List α
  | [] => [a]
  | b :: l => if le a b then a :: b :: l else b :: orderedInsert le a l

/-- Stable insertion sort; models `Array.prototype.sort`, which the
ECMAScript standard requires to be stable. -/
def insertionSort (le : α → α → Bool) : List α → List α
  | [] => []
  | a :: l => orderedInsert le a (insertionSort le l)

/-- The `filteredProducts` memo of the source (part_005, lines 197-257):
the five conditional facet filters applied in their fixed order, then the
sort selected by `sortOption`. -/
def applyFilters (products : List FoodProduct) (f : Facets) : List FoodProduct :=
  let items := products
  let items := if f.type != "all" then items.filter (typeKeeps f.type) else items
  let items := if f.size != "all" then items.filter (sizeKeeps f.size) else items
  let items :=
    if f.lifeStage != "all" then items.filter (lifeStageKeeps f.lifeStage) else items
  let items := if f.price != "all" then items.filter (priceBucketKeeps f.price) else items
  let items := if f.diet != "all" then items.filter (dietKeeps f.diet) else items
  items

/-- The full engine: filter every facet, then sort the surviving subset. -/
def filteredProducts (products : List FoodProduct) (f : Facets)
    (sortOption : String) : List FoodProduct :=
  insertionSort (leFor sortOption) (applyFilters products f)

/-- The `hasActiveFilters` flag of the source (part_005, lines 259-264). -/
def hasActiveFilters (f : Facets) : Bool :=
  f.type != "all" || f.size != "all" || f.lifeStage != "all" ||
    f.price != "all" || f.diet != "all"

/-- Lower-casing of an ASCII character; models `String.prototype.toLowerCase`
for the catalog's ASCII size tokens. -/
def lowerChar (c : Char) : Char :=
  if 65 ≤ c.toNat ∧ c.toNat ≤ 90 then Char.ofNat (c.toNat + 32) else c

/-- Lower-casing of a string, character by character. -/
def lowerString (s : String) : String :=
  ⟨s.data.map lowerChar⟩

/-- Does the character list start with the letters of `"all"`? -/
def startsWithAll : List Char → Bool
  | 'a' :: 'l' :: 'l' :: _ => true
  | _ => false

/-- Does `"all"` occur anywhere in the character list?  Models
`size.includes('all')` from `loadProducts`. -/
def containsAllToken : List Char → Bool
  | [] => false
  | c :: cs => startsWithAll (c :: cs) || containsAllToken cs

/-- The `flatMap` step of the breed-size normalization: a token containing
`all` expands to the three sizes, any other token stays. -/
def expandSizeToken (s : String) : List String :=
  if containsAllToken s.data then ["small", "medium", "large"] else [s]

/-- The final `filter` of the normalization keeps exactly the tokens
`small`, `medium`, `large`; the subsequent cast reads them back as
`BreedSize` values, rendered here as a `filterMap`. -/
def parseBreedSize (s : String) : Option BreedSize :=
  if s == "small" then some BreedSize.small
  else if s == "medium" then some BreedSize.medium
  else if s == "large" then some BreedSize.large
  else none

/-- The breed-size normalization of `loadProducts` (part_005, lines
157-167): an empty raw list becomes all three sizes, otherwise the tokens
are lower-cased, `all`-tokens are expanded, and unrecognized tokens are
dropped. -/
def normalizeBreedSizes (raw : List String) : List BreedSize :=
  if raw.length = 0 then [BreedSize.small, BreedSize.medium, BreedSize.large]
  else ((raw.map lowerString).flatMap expandSizeToken).filterMap parseBreedSize

/-- A calendar date at day granularity, as observed by the source through
`getFullYear` / `getMonth` / `getDate` (the month here is 1-based; only
month differences are ever used). -/
structure SimpleDate where
  year : Int
  month : Int
  day : Int
deriving DecidableEq

/-- Strict calendar order on dates. -/
def dateLt (a b : SimpleDate) : Prop :=
  a.year < b.year ∨
    (a.year = b.year ∧
      (a.month < b.month ∨ (a.month = b.month ∧ a.day < b.day)))

instance (a b : SimpleDate) : Decidable (dateLt a b) := by
  unfold dateLt; infer_instance

/-- Numeric value of an ASCII digit. -/
def digitVal (c : Char) : Option Nat :=
  if 48 ≤ c.toNat ∧ c.toNat ≤ 57 then some (c.toNat - 48) else none

/-- Reads a non-empty all-digit character list as a number. -/
def digitsToNatAux : List Char → Nat → Option Nat
  | [], acc => some acc
  | c :: cs, acc =>
    match digitVal c with
    | none => none
    | some d => digitsToNatAux cs (acc * 10 + d)

/-- Reads a character list as a decimal number; empty lists fail. -/
def digitsToNat : List Char → Option Nat
  | [] => none
  | cs => digitsToNatAux cs 0

/-- Splits a character list on a separator (every group kept, including
empty groups). -/
def splitOnSep (sep : Char) : List Char → List (List Char)
  | [] => [[]]
  | c :: rest =>
    match splitOnSep sep rest with
    | [] => if c = sep then [[], []] else [[c]]
    | g :: gs => if c = sep then [] :: g :: gs else (c :: g) :: gs

/-- Models `new Date(birthDate)` for the engine's inputs at calendar-day
granularity: an ISO `YYYY-MM-DD` string parses to a date, anything else is
an invalid date (`NaN` time value in the source). -/
def parseISODate (s : String) : Option SimpleDate :=
  match (splitOnSep '-' s.data).map digitsToNat with
  | [some y, some m, some d] =>
    if 1 ≤ m ∧ m ≤ 12 ∧ 1 ≤ d ∧ d ≤ 31 then
      some ⟨(y : Int), (m : Int), (d : Int)⟩
    else none
  | _ => none

/-- The label chosen from the adjusted whole-year / whole-month age
(part_004, lines 120-130). -/
def ageString (years months : Int) : Option String :=
  if years < 0 then none
  else if years = 0 then
    if months ≤ 1 then some "Less than a month old"
    else some (toString months ++ " months old")
  else if months = 0 then
    if years = 1 then some "1 year old"
    else some (toString years ++ " years old")
  else some (toString years ++ "y " ++ toString months ++ "m old")

/-- `computeDogAgeLabel` (part_004, lines 106-131): parse the birth date,
subtract calendar fields, borrow a year when the month difference is
negative (or zero with an earlier day of month), and render the label;
unparseable and future dates give `null`. -/
def computeDogAgeLabel (now : SimpleDate) (birthDate : String) : Option String :=
  match parseISODate birthDate with
  | none => none
  | some date =>
    let years : Int := now.year - date.year
    let months : Int := now.month - date.month
    if months < 0 ∨ (months = 0 ∧ now.day < date.day) then
      ageString (years - 1) (months + 12)
    else
      ageString years months

/-- A heap of JavaScript arrays of products; references are indices.
Used to state that the engine never mutates the caller's catalog array. -/
structure Store where
  arrays : List (List FoodProduct)
deriving DecidableEq

/-- Allocate a fresh array holding `a`, returning its reference. -/
def alloc (st : Store) (a : List FoodProduct) : Store × Nat :=
  (⟨st.arrays ++ [a]⟩, st.arrays.length)

/-- Read the array behind a reference. -/
def readArr (st : Store) (r : Nat) : List FoodProduct :=
  st.arrays.getD r []

/-- Overwrite the array behind a reference in place. -/
def writeArr (st : Store) (r : Nat) (a : List FoodProduct) : Store :=
  ⟨st.arrays.set r a⟩

/-- One conditional `items = items.filter(...)` step: when the facet is
active, `filter` allocates a fresh array and `items` is rebound to it. -/
def filterStep (st : Store) (items : Nat) (active : Bool)
    (pred : FoodProduct → Bool) : Store × Nat :=
  if active then alloc st ((readArr st items).filter pred) else (st, items)

/-- The `filteredProducts` computation restated against the array heap:
`products.slice()` allocates a copy, each active facet's `filter`
allocates a fresh array, and the final `items.sort(...)` mutates the
current `items` array in place and returns its reference. -/
def filteredProductsRun (st : Store) (productsRef : Nat) (f : Facets)
    (sortOption : String) : Store × Nat :=
  let s1 := alloc st (readArr st productsRef)
  let s2 := filterStep s1.1 s1.2 (f.type != "all") (typeKeeps f.type)
  let s3 := filterStep s2.1 s2.2 (f.size != "all") (sizeKeeps f.size)
  let s4 := filterStep s3.1 s3.2 (f.lifeStage != "all") (lifeStageKeeps f.lifeStage)
  let s5 := filterStep s4.1 s4.2 (f.price != "all") (priceBucketKeeps f.price)
  let s6 := filterStep s5.1 s5.2 (f.diet != "all") (dietKeeps f.diet)
  (writeArr s6.1 s6.2 (insertionSort (leFor sortOption) (readArr s6.1 s6.2)), s6.2)

/-- Bucket membership as the specification words it: the price is present
and falls in the selected half-open range; tokens outside the four bucket
identifiers match nothing. -/
def inBucket (sel : String) (p : FoodProduct) : Bool :=
  match p.price with
  | none => false
  | some price =>
    if sel == "under-30" then decide (price < 30)
    else if sel == "30-50" then decide (30 ≤ price) && decide (price < 50)
    else if sel == "50-100" then decide (50 ≤ price) && decide (price < 100)
    else if sel == "100-plus" then decide (100 ≤ price)
    else false

/-- The five facet predicates as the specification words them: each facet
is `"all"` or constrains the corresponding product field. -/
def matchesFacets (f : Facets) (p : FoodProduct) : Bool :=
  (f.type == "all" || FoodType.str p.type == f.type) &&
  (f.size == "all" || (p.breedSizes.map BreedSize.str).contains f.size) &&
  (f.lifeStage == "all" || LifeStage.str p.lifeStage == f.lifeStage) &&
  (f.price == "all" || inBucket f.price p) &&
  (f.diet == "all" || p.diets.contains f.diet)

/-- Every facet field is `"all"` or one of that facet's recognized
concrete values. -/
def validFacets (f : Facets) : Prop :=
  (f.type = "all" ∨ f.type ∈ recognizedTypes) ∧
  (f.size = "all" ∨ f.size ∈ recognizedSizes) ∧
  (f.lifeStage = "all" ∨ f.lifeStage ∈ recognizedLifeStages) ∧
  (f.price = "all" ∨ f.price ∈ recognizedPriceBuckets) ∧
  (f.diet = "all" ∨ f.diet ∈ recognizedDiets)

instance (f : Facets) : Decidable (validFacets f) := by
  unfold validFacets; infer_instance

/-- The conjunction of the five conditional filters exactly as the engine
applies them (the price conjunct uses the source's switch with its
permissive default branch). -/
def srcMatches (f : Facets) (p : FoodProduct) : Bool :=
  (f.type == "all" || typeKeeps f.type p) &&
  (f.size == "all" || sizeKeeps f.size p) &&
  (f.lifeStage == "all" || lifeStageKeeps f.lifeStage p) &&
  (f.price == "all" || priceBucketKeeps f.price p) &&
  (f.diet == "all" || dietKeeps f.diet p)

/-- The facet selection with every facet at its `"all"` default. -/
def allFacets : Facets := ⟨"all", "all", "all", "all", "all"⟩

-- ===== generic facts about the stable insertion sort =====

theorem orderedInsert_perm (le : α → α → Bool) (a : α) :
    ∀ l : List α, (orderedInsert le a l).Perm (a :: l)
  | [] => List.Perm.refl _
  | b :: l => by
    rw [orderedInsert]
    cases hab : le a b
    · simp only [Bool.false_eq_true, if_false]
      exact ((orderedInsert_perm le a l).cons b).trans (List.Perm.swap a b l)
    · simp only [if_true]
      exact List.Perm.refl _

theorem insertionSort_perm (le : α → α → Bool) :
    ∀ l : List α, (insertionSort le l).Perm l
  | [] => List.Perm.refl _
  | a :: l =>
    (orderedInsert_perm le a (insertionSort le l)).trans
      ((insertionSort_perm le l).cons a)

theorem mem_orderedInsert_sort {le : α → α → Bool} {a x : α} {l : List α} :
    x ∈ orderedInsert le a l ↔ x = a ∨ x ∈ l := by
  rw [(orderedInsert_perm le a l).mem_iff, List.mem_cons]

theorem pairwise_orderedInsert (le : α → α → Bool)
    (htot : ∀ a b, le a b || le b a)
    (htr : ∀ a b c, le a b = true → le b c = true → le a c = true) (a : α) :
    ∀ {l : List α}, l.Pairwise (fun x y => le x y = true) →
      (orderedInsert le a l).Pairwise (fun x y => le x y = true)
  | [], _ => by simp [orderedInsert]
  | b :: l, h => by
    rw [orderedInsert]
    rcases List.pairwise_cons.mp h with ⟨hb, hl⟩
    cases hab : le a b
    · simp only [Bool.false_eq_true, if_false]
      refine List.pairwise_cons.mpr ⟨?_, pairwise_orderedInsert le htot htr a hl⟩
      intro y hy
      rcases mem_orderedInsert_sort.mp hy with hya | hy
      · rw [hya]
        simpa [hab] using htot a b
      · exact hb y hy
    · simp only [if_true]
      refine List.pairwise_cons.mpr ⟨?_, h⟩
      intro y hy
      rcases List.mem_cons.mp hy with rfl | hy
      · exact hab
      · exact htr a b y hab (hb y hy)

theorem pairwise_insertionSort (le : α → α → Bool)
    (htot : ∀ a b, le a b || le b a)
    (htr : ∀ a b c, le a b = true → le b c = true → le a c = true) :
    ∀ l : List α, (insertionSort le l).Pairwise (fun x y => le x y = true)
  | [] => List.Pairwise.nil
  | a :: l =>
    pairwise_orderedInsert le htot htr a (pairwise_insertionSort le htot htr l)

theorem filter_orderedInsert (le : α → α → Bool) (P : α → Bool) (a : α)
    (hP : ∀ b, P a = true → P b = true → le a b = true) :
    ∀ l : List α, (orderedInsert le a l).filter P
      = if P a then a :: l.filter P else l.filter P
  | [] => by cases hpa : P a <;> simp [orderedInsert, List.filter, hpa]
  | b :: l => by
    rw [orderedInsert]
    cases hab : le a b
    · simp only [Bool.false_eq_true, if_false]
      rw [List.filter_cons, filter_orderedInsert le P a hP l]
      cases hpa : P a
      · simp only [Bool.false_eq_true, if_false, List.filter_cons]
      · cases hpb : P b
        · simp only [Bool.false_eq_true, if_false, if_true, List.filter_cons, hpb]
        · exact absurd (hP b hpa hpb) (by simp [hab])
    · simp only [if_true]
      cases hpa : P a <;> simp [List.filter_cons, hpa]

theorem filter_insertionSort (le : α → α → Bool) (P : α → Bool)
    (hP : ∀ a b, P a = true → P b = true → le a b = true) :
    ∀ l : List α, (insertionSort le l).filter P = l.filter P
  | [] => rfl
  | a :: l => by
    rw [insertionSort, filter_orderedInsert le P a (fun b => hP a b),
      filter_insertionSort le P hP l, List.filter_cons]

-- ===== the four comparators are total preorders =====

theorem ratingDescLe_total (a b : FoodProduct) : ratingDescLe a b || ratingDescLe b a := by
  simp only [ratingDescLe, Bool.or_eq_true, decide_eq_true_eq]
  exact le_total b.rating a.rating

theorem ratingDescLe_trans (a b c : FoodProduct) (h1 : ratingDescLe a b = true)
    (h2 : ratingDescLe b c = true) : ratingDescLe a c = true := by
  simp only [ratingDescLe, decide_eq_true_eq] at *
  exact le_trans h2 h1

theorem priceAscLe_total (a b : FoodProduct) : priceAscLe a b || priceAscLe b a := by
  unfold priceAscLe
  rcases a.price with _ | x <;> rcases b.price with _ | y <;> simp
  exact le_total x y

theorem priceAscLe_trans (a b c : FoodProduct) (h1 : priceAscLe a b = true)
    (h2 : priceAscLe b c = true) : priceAscLe a c = true := by
  unfold priceAscLe at *
  rcases ha : a.price with _ | x <;> rcases hb : b.price with _ | y <;>
    rcases hc : c.price with _ | z <;> simp_all
  linarith

theorem priceDescLe_total (a b : FoodProduct) : priceDescLe a b || priceDescLe b a := by
  unfold priceDescLe
  rcases a.price with _ | x <;> rcases b.price with _ | y <;> simp
  exact (le_total x y).symm.imp id id

theorem priceDescLe_trans (a b c : FoodProduct) (h1 : priceDescLe a b = true)
    (h2 : priceDescLe b c = true) : priceDescLe a c = true := by
  unfold priceDescLe at *
  rcases ha : a.price with _ | x <;> rcases hb : b.price with _ | y <;>
    rcases hc : c.price with _ | z <;> simp_all
  linarith

theorem charListLe_total : ∀ as bs : List Char, charListLe as bs || charListLe bs as
  | [], bs => by simp [charListLe]
  | a :: as, [] => by simp [charListLe]
  | a :: as, b :: bs => by
    simp only [charListLe]
    by_cases h1 : a.toNat < b.toNat
    · simp [h1]
    · by_cases h2 : b.toNat < a.toNat
      · simp [h1, h2]
      · simpa [h1, h2] using charListLe_total as bs

theorem charListLe_trans : ∀ as bs cs : List Char, charListLe as bs = true →
    charListLe bs cs = true → charListLe as cs = true
  | [], _, cs, _, _ => by simp [charListLe]
  | a :: as, [], cs, h1, _ => by simp [charListLe] at h1
  | a :: as, b :: bs, [], _, h2 => by simp [charListLe] at h2
  | a :: as, b :: bs, c :: cs, h1, h2 => by
    rw [charListLe] at h1 h2 ⊢
    by_cases hba : b.toNat < a.toNat
    · rw [if_neg (by omega), if_pos hba] at h1
      exact absurd h1 (by simp)
    · by_cases hcb : c.toNat < b.toNat
      · rw [if_neg (by omega), if_pos hcb] at h2
        exact absurd h2 (by simp)
      · by_cases hac : a.toNat < c.toNat
        · rw [if_pos hac]
        · have hca : ¬ c.toNat < a.toNat := by omega
          have hab : ¬ a.toNat < b.toNat := by omega
          have hbc : ¬ b.toNat < c.toNat := by omega
          rw [if_neg hab, if_neg hba] at h1
          rw [if_neg hbc, if_neg hcb] at h2
          rw [if_neg hac, if_neg hca]
          exact charListLe_trans as bs cs h1 h2

theorem nameAscLe_total (a b : FoodProduct) : nameAscLe a b || nameAscLe b a :=
  charListLe_total a.name.data b.name.data

theorem nameAscLe_trans (a b c : FoodProduct) (h1 : nameAscLe a b = true)
    (h2 : nameAscLe b c = true) : nameAscLe a c = true :=
  charListLe_trans a.name.data b.name.data c.name.data h1 h2

theorem leFor_total (s : String) (a b : FoodProduct) : leFor s a b || leFor s b a := by
  unfold leFor
  split_ifs with h1 h2 h3
  · exact priceAscLe_total a b
  · exact priceDescLe_total a b
  · exact nameAscLe_total a b
  · exact ratingDescLe_total a b

theorem leFor_trans (s : String) (a b c : FoodProduct) (h1 : leFor s a b = true)
    (h2 : leFor s b c = true) : leFor s a c = true := by
  unfold leFor at *
  split_ifs at * with h1' h2' h3'
  · exact priceAscLe_trans a b c h1 h2
  · exact priceDescLe_trans a b c h1 h2
  · exact nameAscLe_trans a b c h1 h2
  · exact ratingDescLe_trans a b c h1 h2

-- ===== the filter chain as a single filter =====

theorem cond_filter (sel : String) (pred : FoodProduct → Bool) (l : List FoodProduct) :
    (if sel != "all" then l.filter pred else l)
      = l.filter (fun p => sel == "all" || pred p) := by
  by_cases h : sel = "all"
  · simp [h]
  · have hb : (sel == "all") = false := by simpa using h
    simp [bne, hb]

theorem applyFilters_eq_filter (c : List FoodProduct) (f : Facets) :
    applyFilters c f = c.filter (srcMatches f) := by
  simp only [applyFilters]
  rw [cond_filter, cond_filter, cond_filter, cond_filter, cond_filter,
    List.filter_filter, List.filter_filter, List.filter_filter, List.filter_filter]
  refine List.filter_congr fun p _ => ?_
  unfold srcMatches
  cases f.type == "all" || typeKeeps f.type p <;>
    cases f.size == "all" || sizeKeeps f.size p <;>
    cases f.lifeStage == "all" || lifeStageKeeps f.lifeStage p <;>
    cases f.price == "all" || priceBucketKeeps f.price p <;>
    cases f.diet == "all" || dietKeeps f.diet p <;> rfl

theorem filteredProducts_perm_applyFilters (c : List FoodProduct) (f : Facets)
    (s : String) : (filteredProducts c f s).Perm (c.filter (srcMatches f)) := by
  rw [filteredProducts, applyFilters_eq_filter]
  exact insertionSort_perm (leFor s) _

theorem filteredProducts_pairwise (c : List FoodProduct) (f : Facets) (s : String) :
    (filteredProducts c f s).Pairwise (fun a b => leFor s a b = true) :=
  pairwise_insertionSort (fun a b => leFor s a b) (leFor_total s) (leFor_trans s) _

theorem priceBucketKeeps_eq_inBucket (sel : String) (p : FoodProduct)
    (hsel : sel ∈ recognizedPriceBuckets) :
    priceBucketKeeps sel p = inBucket sel p := by
  rcases hp : p.price with _ | x
  · simp [priceBucketKeeps, inBucket, hp]
  · simp only [recognizedPriceBuckets, List.mem_cons, List.not_mem_nil, or_false] at hsel
    rcases hsel with rfl | rfl | rfl | rfl <;> simp only [priceBucketKeeps, inBucket, hp] <;> rfl

theorem srcMatches_eq_matchesFacets (f : Facets) (hf : validFacets f)
    (p : FoodProduct) : srcMatches f p = matchesFacets f p := by
  have hprice : (f.price == "all" || priceBucketKeeps f.price p)
      = (f.price == "all" || inBucket f.price p) := by
    rcases hf.2.2.2.1 with h | h
    · simp [h]
    · rw [priceBucketKeeps_eq_inBucket f.price p h]
  unfold srcMatches matchesFacets typeKeeps sizeKeeps lifeStageKeeps dietKeeps
  rw [hprice]

theorem foodTypeStr_mem (t : FoodType) : FoodType.str t ∈ recognizedTypes := by
  cases t <;> simp [FoodType.str, recognizedTypes]

theorem breedSizeStr_mem (b : BreedSize) : BreedSize.str b ∈ recognizedSizes := by
  cases b <;> simp [BreedSize.str, recognizedSizes]

theorem lifeStageStr_mem (l : LifeStage) : LifeStage.str l ∈ recognizedLifeStages := by
  cases l <;> simp [LifeStage.str, recognizedLifeStages]

theorem filteredProducts_eq_nil_of (c : List FoodProduct) (f : Facets) (s : String)
    (h : ∀ p, srcMatches f p = false) : filteredProducts c f s = [] := by
  have hc : c.filter (srcMatches f) = [] :=
    List.filter_eq_nil_iff.mpr fun a _ => by simp [h a]
  rw [filteredProducts, applyFilters_eq_filter, hc]
  rfl

-- ===== facts about the array heap =====

theorem readArr_alloc_of_lt (st : Store) (a : List FoodProduct) (r : Nat)
    (h : r < st.arrays.length) : readArr (alloc st a).1 r = readArr st r := by
  simp only [readArr, alloc]
  exact List.getD_append _ _ _ _ h

theorem readArr_alloc_self (st : Store) (a : List FoodProduct) :
    readArr (alloc st a).1 (alloc st a).2 = a := by
  simp only [readArr, alloc]
  rw [List.getD_append_right _ _ _ _ (le_refl _)]
  simp

theorem readArr_writeArr_ne (st : Store) (j r : Nat) (a : List FoodProduct)
    (h : j ≠ r) : readArr (writeArr st j a) r = readArr st r := by
  simp only [readArr, writeArr]
  rw [List.getD_eq_getElem?_getD, List.getD_eq_getElem?_getD, List.getElem?_set_ne h]

theorem readArr_writeArr_self (st : Store) (j : Nat) (a : List FoodProduct)
    (h : j < st.arrays.length) : readArr (writeArr st j a) j = a := by
  simp only [readArr, writeArr]
  rw [List.getD_eq_getElem?_getD, List.getElem?_set_eq_of_lt a h]
  rfl

theorem filterStep_spec (st : Store) (items r : Nat) (active : Bool)
    (pred : FoodProduct → Bool)
    (hr : r < st.arrays.length) (hitems : items < st.arrays.length) (hne : items ≠ r) :
    readArr (filterStep st items active pred).1 r = readArr st r ∧
    r < (filterStep st items active pred).1.arrays.length ∧
    (filterStep st items active pred).2 < (filterStep st items active pred).1.arrays.length ∧
    (filterStep st items active pred).2 ≠ r ∧
    readArr (filterStep st items active pred).1 (filterStep st items active pred).2
      = (if active then (readArr st items).filter pred else readArr st items) := by
  cases active
  · simpa [filterStep] using ⟨hr, hitems, hne⟩
  · refine ⟨readArr_alloc_of_lt st _ r hr, ?_, ?_, ?_, ?_⟩
    · simp only [filterStep, if_true, alloc, List.length_append, List.length_cons,
        List.length_nil]
      omega
    · simp [filterStep, alloc]
    · simp only [filterStep, if_true, alloc]
      omega
    · simpa [filterStep] using readArr_alloc_self st ((readArr st items).filter pred)

-- ===== concrete fixtures =====

/-- The `Zeta` product of the end-to-end scenario: rating 4.0, price 20. -/
def demoZeta : FoodProduct :=
  ⟨"z", "Zeta", "b", FoodType.dry, [BreedSize.small], LifeStage.adult, [],
    4, some 20, "d", none, none⟩

/-- The `Alpha` product of the end-to-end scenario: rating 4.0, no price. -/
def demoAlpha : FoodProduct :=
  ⟨"a", "Alpha", "b", FoodType.dry, [BreedSize.small], LifeStage.adult, [],
    4, none, "d", none, none⟩

/-- The `Beta` product of the end-to-end scenario: rating 4.9, price 60. -/
def demoBeta : FoodProduct :=
  ⟨"e", "Beta", "b", FoodType.dry, [BreedSize.small], LifeStage.adult, [],
    4.9, some 60, "d", none, none⟩

/-- A dry product priced 20 with one size and one diet tag. -/
def pCheap : FoodProduct :=
  ⟨"c", "Cheap Chow", "b", FoodType.dry, [BreedSize.small], LifeStage.adult,
    ["grain-free"], 4, some 20, "d", none, none⟩

/-- A product priced exactly 30. -/
def pThirty : FoodProduct :=
  ⟨"t", "Thirty", "b", FoodType.dry, [BreedSize.small], LifeStage.adult, [],
    4, some 30, "d", none, none⟩

/-- A product whose `breedSizes` list is empty (the shape produced by the
normalization when every raw token is unrecognized). -/
def pNoSizes : FoodProduct :=
  ⟨"g", "Giant Kibble", "b", FoodType.dry, [], LifeStage.adult, [],
    4, some 20, "d", none, none⟩

/-- A product carrying the three normalized sizes. -/
def pAllSizes : FoodProduct :=
  ⟨"s", "Sizes", "b", FoodType.dry,
    [BreedSize.small, BreedSize.medium, BreedSize.large], LifeStage.adult, [],
    4, some 20, "d", none, none⟩

/-- A one-array heap holding a one-product catalog. -/
def pubStore : Store := ⟨[[pCheap]]⟩

theorem ageString_none_of_neg (y m : Int) (h : y < 0) : ageString y m = none := by
  simp [ageString, h]

theorem priceBucketKeeps_eval (x : ℚ) (p : FoodProduct) (hp : p.price = some x) :
    priceBucketKeeps "under-30" p = decide (x < 30) ∧
    priceBucketKeeps "30-50" p = (decide (30 ≤ x) && decide (x < 50)) ∧
    priceBucketKeeps "50-100" p = (decide (50 ≤ x) && decide (x < 100)) ∧
    priceBucketKeeps "100-plus" p = decide (100 ≤ x) := by
  refine ⟨?_, ?_, ?_, ?_⟩ <;> simp only [priceBucketKeeps, hp] <;> rfl

-- ===== the claims =====

/-- Claim C1: for every catalog and facet selection whose five fields are
each `"all"` or a recognized concrete value, the engine's output contains
exactly the catalog elements satisfying all five facet predicates — it is
a permutation of the catalog filtered by the specification's predicate, so
nothing is fabricated or duplicated and sorting only reorders the
surviving subset. -/
theorem c1_engine_computes_exact_subset (c : List FoodProduct) (f : Facets)
    (s : String) (hf : validFacets f) :
    (filteredProducts c f s).Perm (c.filter (matchesFacets f)) := by
  have he : c.filter (srcMatches f) = c.filter (matchesFacets f) :=
    List.filter_congr fun p _ => srcMatches_eq_matchesFacets f hf p
  exact he ▸ filteredProducts_perm_applyFilters c f s

/-- Witness for C1 at a concrete catalog and valid facet selection. -/
theorem c1_engine_computes_exact_subset_witness :
    validFacets ⟨"dry", "all", "all", "under-30", "all"⟩ ∧
    (filteredProducts [pCheap] ⟨"dry", "all", "all", "under-30", "all"⟩
        "rating-desc").Perm
      ([pCheap].filter (matchesFacets ⟨"dry", "all", "all", "under-30", "all"⟩)) :=
  ⟨by decide,
    c1_engine_computes_exact_subset [pCheap] ⟨"dry", "all", "all", "under-30", "all"⟩
      "rating-desc" (by decide)⟩

/-- Claim C2: under both price sort keys every null-price product appears
after every non-null-price product, and the non-null prices appear in
ascending (`price-asc`) respectively descending (`price-desc`) order. -/
theorem c2_null_prices_sort_last (c : List FoodProduct) (f : Facets) :
    ((filteredProducts c f "price-asc").Pairwise fun a b =>
        (a.price = none → b.price = none) ∧
        ∀ x y, a.price = some x → b.price = some y → x ≤ y) ∧
    ((filteredProducts c f "price-desc").Pairwise fun a b =>
        (a.price = none → b.price = none) ∧
        ∀ x y, a.price = some x → b.price = some y → y ≤ x) := by
  constructor
  · refine (filteredProducts_pairwise c f "price-asc").imp ?_
    intro a b h
    have h' : priceAscLe a b = true := h
    unfold priceAscLe at h'
    rcases ha : a.price with _ | x <;> rcases hb : b.price with _ | y <;> simp_all
  · refine (filteredProducts_pairwise c f "price-desc").imp ?_
    intro a b h
    have h' : priceDescLe a b = true := h
    unfold priceDescLe at h'
    rcases ha : a.price with _ | x <;> rcases hb : b.price with _ | y <;> simp_all

/-- Witness for C2 at a concrete catalog. -/
theorem c2_null_prices_sort_last_witness :
    ((filteredProducts [demoAlpha, demoZeta] allFacets "price-asc").Pairwise fun a b =>
        (a.price = none → b.price = none) ∧
        ∀ x y, a.price = some x → b.price = some y → x ≤ y) ∧
    ((filteredProducts [demoAlpha, demoZeta] allFacets "price-desc").Pairwise fun a b =>
        (a.price = none → b.price = none) ∧
        ∀ x y, a.price = some x → b.price = some y → y ≤ x) :=
  c2_null_prices_sort_last [demoAlpha, demoZeta] allFacets

/-- Claim C3: the four concrete price buckets select a product exactly on
the half-open ranges price < 30, 30 ≤ price < 50, 50 ≤ price < 100 and
price ≥ 100; a price of exactly 30 moves from `under-30` to `30-50`, a
price of exactly 50 from `30-50` to `50-100`, and a null price matches no
concrete bucket. -/
theorem c3_price_bucket_boundaries (p : FoodProduct) :
    ((priceBucketKeeps "under-30" p = true) ↔ ∃ x, p.price = some x ∧ x < 30) ∧
    ((priceBucketKeeps "30-50" p = true) ↔ ∃ x, p.price = some x ∧ 30 ≤ x ∧ x < 50) ∧
    ((priceBucketKeeps "50-100" p = true) ↔ ∃ x, p.price = some x ∧ 50 ≤ x ∧ x < 100) ∧
    ((priceBucketKeeps "100-plus" p = true) ↔ ∃ x, p.price = some x ∧ 100 ≤ x) ∧
    (p.price = some 30 →
      priceBucketKeeps "under-30" p = false ∧ priceBucketKeeps "30-50" p = true) ∧
    (p.price = some 50 →
      priceBucketKeeps "30-50" p = false ∧ priceBucketKeeps "50-100" p = true) ∧
    (p.price = none →
      priceBucketKeeps "under-30" p = false ∧ priceBucketKeeps "30-50" p = false ∧
      priceBucketKeeps "50-100" p = false ∧ priceBucketKeeps "100-plus" p = false) := by
  rcases hp : p.price with _ | x
  · simp [priceBucketKeeps, hp]
  · obtain ⟨e1, e2, e3, e4⟩ := priceBucketKeeps_eval x p hp
    rw [e1, e2, e3, e4]
    refine ⟨by simp [hp], by simp [hp], by simp [hp], by simp [hp], ?_, ?_, by simp [hp]⟩
    · intro h30
      obtain rfl := Option.some.inj h30
      constructor
      · simp only [decide_eq_false_iff_not]
        norm_num
      · simp only [Bool.and_eq_true, decide_eq_true_eq]
        norm_num
    · intro h50
      obtain rfl := Option.some.inj h50
      constructor
      · simp only [Bool.and_eq_false_iff, decide_eq_false_iff_not]
        norm_num
      · simp only [Bool.and_eq_true, decide_eq_true_eq]
        norm_num

/-- Witness for C3 at a product priced exactly 30. -/
theorem c3_price_bucket_boundaries_witness :
    priceBucketKeeps "under-30" pThirty = false ∧
    priceBucketKeeps "30-50" pThirty = true :=
  (c3_price_bucket_boundaries pThirty).2.2.2.2.1 rfl

/-- Claim C4: the engine's sort is stable — for every catalog, facet
selection and sort key, the subsequence of surviving products whose sort
keys compare equal (to any fixed product `k`) is exactly the corresponding
subsequence of the filtered catalog, which preserves catalog order; and on
the scenario catalog [Zeta (4.0, 20), Alpha (4.0, null), Beta (4.9, 60)]
with all facets `"all"` and `rating-desc` the output is
[Beta, Zeta, Alpha]. -/
theorem c4_sort_is_stable :
    (∀ (c : List FoodProduct) (f : Facets) (s : String) (k : FoodProduct),
        (filteredProducts c f s).filter (fun p => leFor s p k && leFor s k p)
          = (c.filter (srcMatches f)).filter (fun p => leFor s p k && leFor s k p)) ∧
    filteredProducts [demoZeta, demoAlpha, demoBeta] allFacets "rating-desc"
      = [demoBeta, demoZeta, demoAlpha] := by
  constructor
  · intro c f s k
    rw [filteredProducts, applyFilters_eq_filter]
    refine filter_insertionSort (fun a b => leFor s a b) _ ?_ _
    intro a b ha hb
    simp only [Bool.and_eq_true] at ha hb
    exact leFor_trans s a k b ha.1 hb.2
  · have hle : leFor "rating-desc" = ratingDescLe := rfl
    have hfilters : applyFilters [demoZeta, demoAlpha, demoBeta] allFacets
        = [demoZeta, demoAlpha, demoBeta] := by
      simp [applyFilters, allFacets]
    rw [filteredProducts, hle, hfilters]
    norm_num [insertionSort, orderedInsert, ratingDescLe, demoZeta, demoAlpha, demoBeta]

/-- Claim C5 counterexample: a product whose `breedSizes` list is empty
(reachable, since normalization of the raw token list `["giant"]` yields
the empty list) is NOT kept by the breed-size filter: the `small` facet
drops it and the engine returns the empty list, refuting the claim that a
product with empty `breedSizes` matches every concrete size selection. -/
theorem c5_counterexample_empty_sizes_dropped :
    pNoSizes.breedSizes = [] ∧
    normalizeBreedSizes ["giant"] = [] ∧
    sizeKeeps "small" pNoSizes = false ∧
    filteredProducts [pNoSizes] ⟨"all", "small", "all", "all", "all"⟩ "rating-desc"
      = [] := by
  decide

/-- Claim C5 as amended: it is the *raw* breed-size data (the input of
`loadProducts`' normalization) whose emptiness is permissive — an empty
raw list is normalized to all three sizes, and a product carrying that
normalized list passes the breed-size filter for `small`, `medium` and
`large` alike and survives the engine under each of those facet
selections; a product whose normalized `breedSizes` list itself is empty
is instead dropped by every concrete size selection. -/
theorem c5_amended_empty_raw_sizes_match_all :
    (∀ p : FoodProduct, p.breedSizes = normalizeBreedSizes [] →
        sizeKeeps "small" p = true ∧ sizeKeeps "medium" p = true ∧
        sizeKeeps "large" p = true ∧
        ∀ sel, sel ∈ recognizedSizes →
          filteredProducts [p] ⟨"all", sel, "all", "all", "all"⟩ "rating-desc" = [p]) ∧
    (∀ p : FoodProduct, p.breedSizes = [] → ∀ sel, sizeKeeps sel p = false) := by
  constructor
  · intro p hp
    have hsmall : sizeKeeps "small" p = true := by
      rw [sizeKeeps, hp]; decide
    have hmedium : sizeKeeps "medium" p = true := by
      rw [sizeKeeps, hp]; decide
    have hlarge : sizeKeeps "large" p = true := by
      rw [sizeKeeps, hp]; decide
    refine ⟨hsmall, hmedium, hlarge, ?_⟩
    intro sel hsel
    have hkeep : sizeKeeps sel p = true := by
      simp only [recognizedSizes, List.mem_cons, List.not_mem_nil, or_false] at hsel
      rcases hsel with rfl | rfl | rfl
      · exact hsmall
      · exact hmedium
      · exact hlarge
    have hne : (sel != "all") = true := by
      simp only [recognizedSizes, List.mem_cons, List.not_mem_nil, or_false] at hsel
      rcases hsel with rfl | rfl | rfl <;> decide
    rw [filteredProducts]
    have happ : applyFilters [p] ⟨"all", sel, "all", "all", "all"⟩ = [p] := by
      simp [applyFilters, hne, List.filter, hkeep]
    rw [happ]
    rfl
  · intro p hp sel
    simp [sizeKeeps, hp]

/-- Witness for the amended C5 at a concrete product carrying the
normalization of an empty raw size list. -/
theorem c5_amended_empty_raw_sizes_match_all_witness :
    sizeKeeps "small" pAllSizes = true ∧
    filteredProducts [pAllSizes] ⟨"all", "small", "all", "all", "all"⟩ "rating-desc"
      = [pAllSizes] :=
  ⟨(c5_amended_empty_raw_sizes_match_all.1 pAllSizes (by decide)).1,
    (c5_amended_empty_raw_sizes_match_all.1 pAllSizes (by decide)).2.2.2 "small"
      (by decide)⟩

/-- Claim C6 counterexample: with the unknown price token
`"mystery-bucket"` (and every other facet `"all"`) the engine does NOT
return the empty list — the switch's default branch keeps every product
whose price is non-null, so the one-product catalog survives intact. -/
theorem c6_counterexample_unknown_price_token_matches :
    filteredProducts [pCheap] ⟨"all", "all", "all", "mystery-bucket", "all"⟩
        "rating-desc" = [pCheap] ∧
    [pCheap] ≠ ([] : List FoodProduct) := by
  decide

/-- Claim C6 as amended: an unknown facet token fails closed only for the
type, breed-size and life-stage facets, whose engine output is then empty;
an unknown price token instead matches every product with a non-null
price (the switch default returns `true` after the null check).  (An
unknown diet token simply behaves as ordinary membership in the free-form
`diets` list.) -/
theorem c6_amended_unknown_tokens (c : List FoodProduct) (f : Facets) (s : String) :
    ((f.type ≠ "all" ∧ f.type ∉ recognizedTypes) → filteredProducts c f s = []) ∧
    ((f.size ≠ "all" ∧ f.size ∉ recognizedSizes) → filteredProducts c f s = []) ∧
    ((f.lifeStage ≠ "all" ∧ f.lifeStage ∉ recognizedLifeStages) →
      filteredProducts c f s = []) ∧
    ((f.price ≠ "all" ∧ f.price ∉ recognizedPriceBuckets) →
      ∀ p, priceBucketKeeps f.price p = p.price.isSome) := by
  refine ⟨?_, ?_, ?_, ?_⟩
  · rintro ⟨h1, h2⟩
    refine filteredProducts_eq_nil_of c f s fun p => ?_
    have hb : (f.type == "all") = false := by simpa using h1
    have ht : typeKeeps f.type p = false := by
      cases htk : FoodType.str p.type == f.type
      · exact htk
      · exact absurd (eq_of_beq htk ▸ foodTypeStr_mem p.type) h2
    simp [srcMatches, hb, ht]
  · rintro ⟨h1, h2⟩
    refine filteredProducts_eq_nil_of c f s fun p => ?_
    have hb : (f.size == "all") = false := by simpa using h1
    have ht : sizeKeeps f.size p = false := by
      cases htk : (p.breedSizes.map BreedSize.str).contains f.size
      · exact htk
      · exfalso
        have hmem := List.mem_of_elem_eq_true htk
        obtain ⟨b, _, hbs⟩ := List.mem_map.mp hmem
        exact h2 (hbs ▸ breedSizeStr_mem b)
    simp [srcMatches, hb, ht]
  · rintro ⟨h1, h2⟩
    refine filteredProducts_eq_nil_of c f s fun p => ?_
    have hb : (f.lifeStage == "all") = false := by simpa using h1
    have ht : lifeStageKeeps f.lifeStage p = false := by
      cases htk : LifeStage.str p.lifeStage == f.lifeStage
      · exact htk
      · exact absurd (eq_of_beq htk ▸ lifeStageStr_mem p.lifeStage) h2
    simp [srcMatches, hb, ht]
  · rintro ⟨h1, h2⟩
    intro p
    simp only [recognizedPriceBuckets, List.mem_cons, List.not_mem_nil, or_false,
      not_or] at h2
    obtain ⟨hu, h35, h51, h1p⟩ := h2
    have hb1 : (f.price == "under-30") = false := by simpa using hu
    have hb2 : (f.price == "30-50") = false := by simpa using h35
    have hb3 : (f.price == "50-100") = false := by simpa using h51
    have hb4 : (f.price == "100-plus") = false := by simpa using h1p
    rcases hp : p.price with _ | x <;>
      simp [priceBucketKeeps, hp, hb1, hb2, hb3, hb4]

/-- Witness for the amended C6: an unknown food-type token empties the
output, and an unknown price token keeps a priced product. -/
theorem c6_amended_unknown_tokens_witness :
    filteredProducts [pCheap] ⟨"kibble", "all", "all", "all", "all"⟩ "rating-desc"
      = [] ∧
    priceBucketKeeps "mystery-bucket" pCheap = Option.isSome pCheap.price :=
  ⟨(c6_amended_unknown_tokens [pCheap] ⟨"kibble", "all", "all", "all", "all"⟩
      "rating-desc").1 ⟨by decide, by decide⟩,
    (c6_amended_unknown_tokens [pCheap]
      ⟨"all", "all", "all", "mystery-bucket", "all"⟩ "rating-desc").2.2.2
      ⟨by decide, by decide⟩ pCheap⟩

/-- Claim C7: `computeDogAgeLabel` returns `null` for every unparseable
birth-date string and for every parseable date strictly after "now"; at
"now" = 2024-03-20 the input `"2024-01-15"` yields `"2 months old"` and
`"not-a-date"` yields `null`. -/
theorem c7_computeDogAgeLabel_nulls :
    (∀ (now : SimpleDate) (s : String),
        parseISODate s = none → computeDogAgeLabel now s = none) ∧
    (∀ (now : SimpleDate) (s : String) (d : SimpleDate),
        parseISODate s = some d → dateLt now d → computeDogAgeLabel now s = none) ∧
    computeDogAgeLabel ⟨2024, 3, 20⟩ "2024-01-15" = some "2 months old" ∧
    computeDogAgeLabel ⟨2024, 3, 20⟩ "not-a-date" = none := by
  refine ⟨?_, ?_, by decide, by decide⟩
  · intro now s h
    simp [computeDogAgeLabel, h]
  · intro now s d hparse hlt
    simp only [computeDogAgeLabel, hparse]
    rcases hlt with hy | ⟨hy, hm | ⟨hm, hd⟩⟩ <;>
      · split_ifs with hcond <;>
          · apply ageString_none_of_neg
            omega

/-- Witness for C7: a future date and an unparseable string, with the
hypotheses discharged at the concrete inputs. -/
theorem c7_computeDogAgeLabel_nulls_witness :
    computeDogAgeLabel ⟨2024, 3, 20⟩ "2025-01-01" = none ∧
    computeDogAgeLabel ⟨2024, 3, 20⟩ "99x" = none :=
  ⟨c7_computeDogAgeLabel_nulls.2.1 ⟨2024, 3, 20⟩ "2025-01-01" ⟨2025, 1, 1⟩
      (by decide) (by decide),
    c7_computeDogAgeLabel_nulls.1 ⟨2024, 3, 20⟩ "99x" (by decide)⟩

/-- Claim C9: `hasActiveFilters` is `false` exactly when all five facet
fields equal `"all"`, equivalently `true` exactly when at least one is
not `"all"`; the sort key plays no part in the definition. -/
theorem c9_hasActiveFilters_iff (f : Facets) :
    (hasActiveFilters f = false ↔
      f.type = "all" ∧ f.size = "all" ∧ f.lifeStage = "all" ∧
        f.price = "all" ∧ f.diet = "all") ∧
    (hasActiveFilters f = true ↔
      (f.type ≠ "all" ∨ f.size ≠ "all" ∨ f.lifeStage ≠ "all" ∨
        f.price ≠ "all" ∨ f.diet ≠ "all")) := by
  unfold hasActiveFilters
  constructor
  · simp only [Bool.or_eq_false_iff, bne_eq_false_iff_eq]
    tauto
  · simp only [Bool.or_eq_true, bne_iff_ne, ne_eq]
    tauto

/-- Witness for C9 at the default (all-`"all"`) facet selection. -/
theorem c9_hasActiveFilters_iff_witness :
    hasActiveFilters allFacets = false :=
  (c9_hasActiveFilters_iff allFacets).1.mpr (by decide)

/-- Claim C10: a sort key outside the four recognized identifiers falls
into the switch's default branch, so the engine output equals the
`rating-desc` output exactly. -/
theorem c10_unknown_sort_key_defaults_to_rating (c : List FoodProduct) (f : Facets)
    (s : String)
    (hs : s ∉ ["rating-desc", "price-asc", "price-desc", "name-asc"]) :
    filteredProducts c f s = filteredProducts c f "rating-desc" := by
  simp only [List.mem_cons, List.not_mem_nil, or_false, not_or] at hs
  obtain ⟨h0, h1, h2, h3⟩ := hs
  have hb1 : (s == "price-asc") = false := by simpa using h1
  have hb2 : (s == "price-desc") = false := by simpa using h2
  have hb3 : (s == "name-asc") = false := by simpa using h3
  have hfun : leFor s = leFor "rating-desc" := by
    funext a b
    rw [leFor, hb1, hb2, hb3]
    rfl
  rw [filteredProducts, filteredProducts, hfun]

/-- Witness for C10 at a concrete unknown sort key. -/
theorem c10_unknown_sort_key_defaults_to_rating_witness :
    filteredProducts [pCheap] allFacets "banana"
      = filteredProducts [pCheap] allFacets "rating-desc" :=
  c10_unknown_sort_key_defaults_to_rating [pCheap] allFacets "banana" (by decide)

/-- Claim C8: the engine computes on a working copy — running
`filteredProducts` against the array heap leaves the caller's catalog
array untouched (its contents after the call equal its contents before),
while the returned array holds exactly the pure engine's output. -/
theorem c8_engine_never_mutates_catalog (st : Store) (r : Nat) (f : Facets)
    (s : String) (hr : r < st.arrays.length) :
    readArr (filteredProductsRun st r f s).1 r = readArr st r ∧
    readArr (filteredProductsRun st r f s).1 (filteredProductsRun st r f s).2
      = filteredProducts (readArr st r) f s := by
  simp only [filteredProductsRun]
  set s1 : Store × Nat := alloc st (readArr st r) with hs1
  have h1a : readArr s1.1 r = readArr st r := readArr_alloc_of_lt st _ r hr
  have h1b : r < s1.1.arrays.length := by
    rw [hs1]; simp only [alloc, List.length_append, List.length_cons, List.length_nil]
    omega
  have h1c : s1.2 < s1.1.arrays.length := by
    rw [hs1]; simp [alloc]
  have h1d : s1.2 ≠ r := by
    rw [hs1]; simp only [alloc]; omega
  have h1e : readArr s1.1 s1.2 = readArr st r := readArr_alloc_self st _
  set s2 : Store × Nat := filterStep s1.1 s1.2 (f.type != "all") (typeKeeps f.type)
    with hs2
  obtain ⟨h2a, h2b, h2c, h2d, h2e⟩ :=
    filterStep_spec s1.1 s1.2 r (f.type != "all") (typeKeeps f.type) h1b h1c h1d
  rw [h1a] at h2a
  rw [h1e] at h2e
  set s3 : Store × Nat := filterStep s2.1 s2.2 (f.size != "all") (sizeKeeps f.size)
    with hs3
  obtain ⟨h3a, h3b, h3c, h3d, h3e⟩ :=
    filterStep_spec s2.1 s2.2 r (f.size != "all") (sizeKeeps f.size) h2b h2c h2d
  rw [h2a] at h3a
  rw [h2e] at h3e
  set s4 : Store × Nat := filterStep s3.1 s3.2 (f.lifeStage != "all")
    (lifeStageKeeps f.lifeStage) with hs4
  obtain ⟨h4a, h4b, h4c, h4d, h4e⟩ :=
    filterStep_spec s3.1 s3.2 r (f.lifeStage != "all") (lifeStageKeeps f.lifeStage)
      h3b h3c h3d
  rw [h3a] at h4a
  rw [h3e] at h4e
  set s5 : Store × Nat := filterStep s4.1 s4.2 (f.price != "all")
    (priceBucketKeeps f.price) with hs5
  obtain ⟨h5a, h5b, h5c, h5d, h5e⟩ :=
    filterStep_spec s4.1 s4.2 r (f.price != "all") (priceBucketKeeps f.price)
      h4b h4c h4d
  rw [h4a] at h5a
  rw [h4e] at h5e
  set s6 : Store × Nat := filterStep s5.1 s5.2 (f.diet != "all") (dietKeeps f.diet)
    with hs6
  obtain ⟨h6a, h6b, h6c, h6d, h6e⟩ :=
    filterStep_spec s5.1 s5.2 r (f.diet != "all") (dietKeeps f.diet) h5b h5c h5d
  rw [h5a] at h6a
  rw [h5e] at h6e
  constructor
  · rw [readArr_writeArr_ne s6.1 s6.2 r _ h6d]
    exact h6a
  · rw [readArr_writeArr_self s6.1 s6.2 _ h6c, h6e, filteredProducts]
    congr 1

/-- Witness for C8 at a concrete one-array heap. -/
theorem c8_engine_never_mutates_catalog_witness :
    readArr (filteredProductsRun pubStore 0 allFacets "rating-desc").1 0
      = readArr pubStore 0 ∧
    readArr (filteredProductsRun pubStore 0 allFacets "rating-desc").1
        (filteredProductsRun pubStore 0 allFacets "rating-desc").2
      = filteredProducts (readArr pubStore 0) allFacets "rating-desc" :=
  c8_engine_never_mutates_catalog pubStore 0 allFacets "rating-desc" (by decide)
